import Mathlib

/-!
Shallow embedding of the property CGT calculator (`src/main.py`):
`parse_date`, `days_overlap`, `validate_periods`, `calculate_cgt_periods`.
Dates are modelled as (year, month, day) triples with a proleptic-Gregorian
ordinal (Python `date.toordinal`); Python floats are modelled as rationals;
Python `ValueError` exceptions are modelled as `Except String` with the
exact message strings raised by the code.
-/

instance {ε α : Type} [DecidableEq ε] [DecidableEq α] : DecidableEq (Except ε α) := fun x y =>
  match x, y with
  | .ok a, .ok b =>
    if h : a = b then .isTrue (by rw [h]) else .isFalse (by intro hc; cases hc; exact h rfl)
  | .ok _, .error _ => .isFalse (by intro hc; cases hc)
  | .error _, .ok _ => .isFalse (by intro hc; cases hc)
  | .error e, .error f =>
    if h : e = f then .isTrue (by rw [h]) else .isFalse (by intro hc; cases hc; exact h rfl)

/-- A calendar date, as produced by `datetime.strptime` (time-of-day is
always midnight in this program, so only the date part matters). -/
structure Date where
  year : ℕ
  month : ℕ
  day : ℕ
deriving DecidableEq, Repr

/-- Gregorian leap-year test, as used by Python's `datetime`. -/
def isLeap (y : ℕ) : Bool :=
  (y % 4 == 0 && y % 100 != 0) || y % 400 == 0

/-- Number of days in a month of a given year (Python `calendar` rule). -/
def daysInMonth (y m : ℕ) : ℕ :=
  if m == 2 then (if isLeap y then 29 else 28)
  else if m == 4 || m == 6 || m == 9 || m == 11 then 30
  else 31

/-- Days in the years before year `y` (proleptic Gregorian). -/
def daysBeforeYear (y : ℕ) : ℕ :=
  let n := y - 1
  365 * n + n / 4 + n / 400 - n / 100

/-- Days in year `y` strictly before month `m`. -/
def daysBeforeMonth (y m : ℕ) : ℕ :=
  let base :=
    if m ≤ 1 then 0 else if m = 2 then 31 else if m = 3 then 59
    else if m = 4 then 90 else if m = 5 then 120 else if m = 6 then 151
    else if m = 7 then 181 else if m = 8 then 212 else if m = 9 then 243
    else if m = 10 then 273 else if m = 11 then 304 else 334
  if 2 < m && isLeap y then base + 1 else base

/-- Proleptic-Gregorian ordinal of a date, exactly Python's
`date.toordinal` (0001-01-01 has ordinal 1).  Subtracting two `datetime`
values in the code yields a `timedelta` whose `.days` equals the
difference of the ordinals, and `datetime` comparison agrees with
ordinal comparison on valid dates. -/
def toOrdinal (d : Date) : ℕ :=
  daysBeforeYear d.year + daysBeforeMonth d.year d.month + d.day

/-- Ordinal as an integer, for day subtraction. -/
def toDays (d : Date) : ℤ :=
  (toOrdinal d : ℤ)

/-- Interpret a list of decimal digit characters as a number. -/
def digitsToNat (l : List Char) : ℕ :=
  l.foldl (fun acc c => 10 * acc + (c.toNat - '0'.toNat)) 0

/-- Strip leading and trailing whitespace, as Python `str.strip()`
(structural-recursion model of `String.trim`). -/
def trimChars (l : List Char) : List Char :=
  ((l.dropWhile Char.isWhitespace).reverse.dropWhile Char.isWhitespace).reverse

/-- Split a character list at every occurrence of `sep`, keeping empty
pieces, as Python `str.split(sep)` / `String.splitOn`. -/
def splitChar (sep : Char) (l : List Char) : List (List Char) :=
  l.foldr
    (fun c acc =>
      match acc with
      | [] => [[c]]
      | h :: t => if c == sep then [] :: h :: t else (c :: h) :: t)
    [[]]

/-- Whether a character list is nonempty, all decimal digits, of length
between `lo` and `hi` (the digit-count constraints of the `strptime`
patterns: `%Y` is exactly four digits, `%m` and `%d` are one or two
digits). -/
def digitField (s : List Char) (lo hi : ℕ) : Bool :=
  s.all Char.isDigit && lo ≤ s.length && s.length ≤ hi

/-- Validity of a (year, month, day) triple for `datetime`: year in
1..9999, month in 1..12, day within the month. -/
def validYMD (y m d : ℕ) : Bool :=
  1 ≤ y && y ≤ 9999 && 1 ≤ m && m ≤ 12 && 1 ≤ d && d ≤ daysInMonth y m

/-- `datetime.strptime(t, "%Y-%m-%d")`: four-digit year, dash,
one-or-two-digit month, dash, one-or-two-digit day, and the resulting
triple must be a real calendar date (otherwise `strptime` raises
`ValueError`, which the caller's `except` treats as a format failure). -/
def tryYMD (t : List Char) : Option Date :=
  match splitChar '-' t with
  | [ys, ms, ds] =>
    if digitField ys 4 4 && digitField ms 1 2 && digitField ds 1 2 then
      let y := digitsToNat ys
      let m := digitsToNat ms
      let d := digitsToNat ds
      if validYMD y m d then some ⟨y, m, d⟩ else none
    else none
  | _ => none

/-- `datetime.strptime(t, "%d/%m/%Y")`: day/month/year with the same
digit-count and calendar-validity constraints. -/
def tryDMY (t : List Char) : Option Date :=
  match splitChar '/' t with
  | [ds, ms, ys] =>
    if digitField ds 1 2 && digitField ms 1 2 && digitField ys 4 4 then
      let y := digitsToNat ys
      let m := digitsToNat ms
      let d := digitsToNat ds
      if validYMD y m d then some ⟨y, m, d⟩ else none
    else none
  | _ => none

/-- The message of the `ValueError` raised by `parse_date`. -/
def invalidDateMsg : String :=
  "Invalid date format. Use YYYY-MM-DD or DD/MM/YYYY"

/-- `parse_date` from `main.py`: strip whitespace, try `%Y-%m-%d` then
`%d/%m/%Y`, first success wins; raise `ValueError` with a fixed message
if both fail. -/
def parse_date (date_str : String) : Except String Date :=
  match tryYMD (trimChars date_str.data) with
  | some d => .ok d
  | none =>
    match tryDMY (trimChars date_str.data) with
    | some d => .ok d
    | none => .error invalidDateMsg

/-- `days_overlap` from `main.py`, on date ordinals: days of overlap
between [start1, end1] and [start2, end2]; `max` of the starts, `min`
of the ends, zero when the intersection is empty or negative. -/
def days_overlap (start1 end1 start2 end2 : ℤ) : ℤ :=
  let start := max start1 start2
  let «end» := min end1 end2
  if «end» ≤ start then 0 else «end» - start

/-- A usage period as supplied to the core: raw label, raw date strings
and a taxable factor (Python float, modelled as a rational). -/
structure Period where
  label : String
  start : String
  end_ : String
  taxable_factor : ℚ
deriving DecidableEq, Repr

/-- A usage period after date parsing inside `validate_periods`. -/
structure VPeriod where
  label : String
  s : Date
  e : Date
deriving DecidableEq, Repr

/-- Decimal string of a natural number, zero-padded to two digits, as
`datetime.date` prints months and days. -/
def pad2 (n : ℕ) : String :=
  if n < 10 then "0" ++ toString n else toString n

/-- Decimal string of a natural number, zero-padded to four digits, as
`datetime.date` prints years. -/
def pad4 (n : ℕ) : String :=
  if n < 10 then "000" ++ toString n
  else if n < 100 then "00" ++ toString n
  else if n < 1000 then "0" ++ toString n
  else toString n

/-- ISO rendering of a date, as `f"{dt.date()}"` in the warnings. -/
def dateStr (d : Date) : String :=
  pad4 d.year ++ "-" ++ pad2 d.month ++ "-" ++ pad2 d.day

/-- Message of the `ValueError` raised on an empty period list. -/
def emptyPeriodsMsg : String :=
  "You must enter at least one usage period."

/-- Message of the `ValueError` raised when a period's end is not
strictly after its start, naming the period's label. -/
def invalidPeriodMsg (label : String) : String :=
  "Period '" ++ label ++ "' end date must be AFTER start date."

/-- Message of the `ValueError` raised when the sell date is not
strictly after the buy date. -/
def sellBuyMsg : String :=
  "Sell date must be after buy date."

/-- The gap-before-first-period warning string. -/
def gapBeforeMsg (dbuy : Date) (first : VPeriod) : String :=
  "There is a gap of " ++ toString (toDays first.s - toDays dbuy) ++
    " days BEFORE the first period (from " ++ dateStr dbuy ++ " to " ++
    dateStr first.s ++ ")."

/-- The gap-after-last-period warning string. -/
def gapAfterMsg (lastp : VPeriod) (dsell : Date) : String :=
  "There is a gap of " ++ toString (toDays dsell - toDays lastp.e) ++
    " days AFTER the last period (from " ++ dateStr lastp.e ++ " to " ++
    dateStr dsell ++ ")."

/-- The overlap warning string for two periods. -/
def overlapMsg (prev cur : VPeriod) : String :=
  "Periods '" ++ prev.label ++ "' and '" ++ cur.label ++ "' overlap by " ++
    toString (toDays prev.e - toDays cur.s) ++ " days."

/-- The gap-between-periods warning string. -/
def gapBetweenMsg (prev cur : VPeriod) : String :=
  "There is a gap of " ++ toString (toDays cur.s - toDays prev.e) ++
    " days between '" ++ prev.label ++ "' and '" ++ cur.label ++ "'."

/-- The parse-and-check loop at the top of `validate_periods`: parse
each period's dates in input order, raising `InvalidPeriod` (naming the
label) as soon as a period's end is not strictly after its start. -/
def parseAllV : List Period → Except String (List VPeriod)
  | [] => .ok []
  | p :: rest =>
    match parse_date p.start with
    | .error msg => .error msg
    | .ok s =>
      match parse_date p.end_ with
      | .error msg => .error msg
      | .ok e =>
        if toDays e ≤ toDays s then .error (invalidPeriodMsg p.label)
        else
          match parseAllV rest with
          | .error msg => .error msg
          | .ok r => .ok (⟨p.label, s, e⟩ :: r)

/-- `parsed.sort(key=lambda x: x["start"])` — Python's stable sort by
start date, modelled by the (stable) insertion sort. -/
def sortByStart (l : List VPeriod) : List VPeriod :=
  List.insertionSort (fun a b => toDays a.s ≤ toDays b.s) l

/-- `parsed[-1]`: the last element of a nonempty list. -/
def lastOf (x : VPeriod) : List VPeriod → VPeriod
  | [] => x
  | y :: ys => lastOf y ys

/-- The adjacent-pair scan of `validate_periods`: compare each later
period against the running frontier `prev`, emitting overlap/gap
warnings, and replace the frontier only when the new period ends
later. -/
def scanWarnings (prev : VPeriod) : List VPeriod → List String
  | [] => []
  | cur :: rest =>
    let w :=
      if toDays cur.s < toDays prev.e then [overlapMsg prev cur]
      else if toDays prev.e < toDays cur.s then [gapBetweenMsg prev cur]
      else []
    w ++ scanWarnings (if toDays prev.e < toDays cur.e then cur else prev) rest

/-- `validate_periods` from `main.py`: reject an empty list before any
parsing, parse the window and the periods (rejecting non-increasing
periods), sort by start date, then emit gap-before, gap-after (keyed on
the last period in sort order) and pairwise overlap/gap warnings. -/
def validate_periods (buy_date sell_date : String) (periods : List Period) :
    Except String (List String) :=
  match periods with
  | [] => .error emptyPeriodsMsg
  | _ :: _ =>
    match parse_date buy_date with
    | .error msg => .error msg
    | .ok dbuy =>
      match parse_date sell_date with
      | .error msg => .error msg
      | .ok dsell =>
        match parseAllV periods with
        | .error msg => .error msg
        | .ok parsed =>
          match sortByStart parsed with
          | [] => .ok []
          | first :: rest =>
            let w1 :=
              if toDays dbuy < toDays first.s then [gapBeforeMsg dbuy first] else []
            let lastP := lastOf first rest
            let w2 :=
              if toDays lastP.e < toDays dsell then [gapAfterMsg lastP dsell] else []
            .ok ((w1 ++ w2) ++ scanWarnings first rest)

/-- One entry of the per-period breakdown list returned by
`calculate_cgt_periods` (start/end are echoed back as raw strings). -/
structure PBreakdown where
  label : String
  start : String
  end_ : String
  overlap_days : ℤ
  taxable_factor : ℚ
  taxable_days : ℚ
  exempt_days : ℚ
deriving DecidableEq, Repr

/-- The result dictionary of `calculate_cgt_periods`. -/
structure CGTResult where
  holding_days : ℤ
  taxable_days : ℚ
  exempt_days : ℚ
  uncovered_days : ℚ
  taxable_fraction : ℚ
  exempt_fraction : ℚ
  original_cost_base : ℚ
  capital_works_addback : ℚ
  adjusted_cost_base : ℚ
  sell_price : ℚ
  raw_capital_gain : ℚ
  ownership_adjusted_gain : ℚ
  taxable_gain_before_discount : ℚ
  discount_rate : ℚ
  final_taxable_gain : ℚ
  period_breakdown : List PBreakdown
deriving DecidableEq, Repr

/-- Python's `round(q, 4)` numerator rounding: nearest integer, ties to
even (banker's rounding), on exact rationals. -/
def roundEven (q : ℚ) : ℤ :=
  if Int.fract q < 1/2 then ⌊q⌋
  else if 1/2 < Int.fract q then ⌊q⌋ + 1
  else if ⌊q⌋ % 2 = 0 then ⌊q⌋ else ⌊q⌋ + 1

/-- Python's `round(q, 4)`: round to four decimal places, ties to
even. -/
def round4 (q : ℚ) : ℚ :=
  (roundEven (q * 10000) : ℚ) / 10000

/-- The period loop of `calculate_cgt_periods`: parse each period's
dates (propagating parse failures), compute its overlap with the
holding window and its taxable/exempt day weights, and accumulate the
totals and the breakdown list in input order. -/
def runPeriods (dbuy dsell : ℤ) : List Period → Except String (ℚ × ℚ × List PBreakdown)
  | [] => .ok (0, 0, [])
  | p :: rest =>
    match parse_date p.start with
    | .error msg => .error msg
    | .ok ds =>
      match parse_date p.end_ with
      | .error msg => .error msg
      | .ok de =>
        let ov := days_overlap dbuy dsell (toDays ds) (toDays de)
        let pt := (ov : ℚ) * p.taxable_factor
        let pe := (ov : ℚ) * (1 - p.taxable_factor)
        match runPeriods dbuy dsell rest with
        | .error msg => .error msg
        | .ok (td, ed, det) =>
          .ok (pt + td, pe + ed,
            ⟨p.label, p.start, p.end_, ov, p.taxable_factor, pt, pe⟩ :: det)

/-- `calculate_cgt_periods` from `main.py`. -/
def calculate_cgt_periods (buy_price : ℚ) (buy_date : String) (sell_price : ℚ)
    (sell_date : String) (ownership_percentage : ℚ) (capital_works_addback : ℚ)
    (periods : List Period) : Except String CGTResult :=
  match parse_date buy_date with
  | .error msg => .error msg
  | .ok dbuy =>
    match parse_date sell_date with
    | .error msg => .error msg
    | .ok dsell =>
      if toDays dsell ≤ toDays dbuy then .error sellBuyMsg
      else
        let holding_days : ℤ := toDays dsell - toDays dbuy
        let adjusted_cost_base := buy_price + capital_works_addback
        let raw_gain := sell_price - adjusted_cost_base
        let owner_gain := raw_gain * ownership_percentage
        match runPeriods (toDays dbuy) (toDays dsell) periods with
        | .error msg => .error msg
        | .ok (taxable_days, exempt_days, period_details) =>
          let total_covered := taxable_days + exempt_days
          let uncovered_days := (holding_days : ℚ) - total_covered
          let taxable_fraction :=
            if 0 < holding_days then taxable_days / (holding_days : ℚ) else 0
          let exempt_fraction := 1 - taxable_fraction
          let taxable_gain_before_discount := owner_gain * taxable_fraction
          let discount_rate : ℚ := if 365 ≤ holding_days then 1/2 else 0
          let discounted_gain := taxable_gain_before_discount * (1 - discount_rate)
          .ok ⟨holding_days, taxable_days, exempt_days, uncovered_days,
            round4 taxable_fraction, round4 exempt_fraction, buy_price,
            capital_works_addback, adjusted_cost_base, sell_price, raw_gain,
            owner_gain, taxable_gain_before_discount, discount_rate,
            discounted_gain, period_details⟩

/-- Whether both date strings of a period parse successfully. -/
def parsesOkB (p : Period) : Bool :=
  match parse_date p.start, parse_date p.end_ with
  | .ok _, .ok _ => true
  | _, _ => false

/-- Whether a period parses and its end is not strictly after its
start (the condition `validate_periods` rejects). -/
def periodBad (p : Period) : Bool :=
  match parse_date p.start, parse_date p.end_ with
  | .ok s, .ok e => toDays e ≤ toDays s
  | _, _ => false

/-- Parsed start ordinal of a period (0 if unparseable; only used under
a parse-success hypothesis). -/
def pStart (p : Period) : ℤ :=
  match parse_date p.start with
  | .ok d => toDays d
  | .error _ => 0

/-- Parsed end ordinal of a period (0 if unparseable; only used under a
parse-success hypothesis). -/
def pEnd (p : Period) : ℤ :=
  match parse_date p.end_ with
  | .ok d => toDays d
  | .error _ => 0

/-- Overlap of a period with the holding window [dbuy, dsell], as
computed inside the period loop (0 if the dates do not parse). -/
def povDays (dbuy dsell : ℤ) (p : Period) : ℤ :=
  match parse_date p.start, parse_date p.end_ with
  | .ok ds, .ok de => days_overlap dbuy dsell (toDays ds) (toDays de)
  | _, _ => 0

/-- The breakdown entry produced for one period by the period loop. -/
def pentry (dbuy dsell : ℤ) (p : Period) : PBreakdown :=
  ⟨p.label, p.start, p.end_, povDays dbuy dsell p, p.taxable_factor,
    (povDays dbuy dsell p : ℚ) * p.taxable_factor,
    (povDays dbuy dsell p : ℚ) * (1 - p.taxable_factor)⟩

/-- Closed form of the result of `calculate_cgt_periods` on window
ordinals `B < S` when every period's dates parse (proved equal to the
function below in `calculate_ok`). -/
def calcResult (bp sp op cw : ℚ) (B S : ℤ) (ps : List Period) : CGTResult :=
  let H : ℤ := S - B
  let td : ℚ := (ps.map fun p => (povDays B S p : ℚ) * p.taxable_factor).sum
  let ed : ℚ := (ps.map fun p => (povDays B S p : ℚ) * (1 - p.taxable_factor)).sum
  let acb := bp + cw
  let raw := sp - acb
  let og := raw * op
  let tf := td / (H : ℚ)
  let tgbd := og * tf
  let dr : ℚ := if 365 ≤ H then 1/2 else 0
  ⟨H, td, ed, (H : ℚ) - (td + ed), round4 tf, round4 (1 - tf), bp, cw, acb, sp,
    raw, og, tgbd, dr, tgbd * (1 - dr), ps.map (pentry B S)⟩

/-- The claim's description of the adjacent-pair scan, written from its
words for comparison with the code's scan: compare each next period to
the running frontier, emit an overlap warning with day count
(frontier.end - next.start) exactly when next.start < frontier.end, a
gap warning with day count (next.start - frontier.end) exactly when
next.start > frontier.end, no warning on equality, then let the
frontier become whichever of the two periods has the later end date. -/
def scanSpec (frontier : VPeriod) : List VPeriod → List String
  | [] => []
  | next :: rest =>
    (if toDays next.s < toDays frontier.e then [overlapMsg frontier next]
     else if toDays frontier.e < toDays next.s then [gapBetweenMsg frontier next]
     else [])
    ++ scanSpec (if toDays frontier.e < toDays next.e then next else frontier) rest

/-- The claim's "running maximum over the end dates seen so far",
starting from a given first end ordinal. -/
def runningMaxEnd (x : ℤ) : List VPeriod → ℤ
  | [] => x
  | q :: qs => runningMaxEnd (max x (toDays q.e)) qs

/-- Whether the first character list is a prefix of the second. -/
def charsPrefix : List Char → List Char → Bool
  | [], _ => true
  | _ :: _, [] => false
  | a :: as, b :: bs => a == b && charsPrefix as bs

/-- Whether `needle` occurs as a contiguous run inside `hay`. -/
def charsInfix (needle : List Char) : List Char → Bool
  | [] => needle.isEmpty
  | c :: rest => charsPrefix needle (c :: rest) || charsInfix needle rest

/-- Whether `needle` occurs as a contiguous substring of `hay`. -/
def strContains (hay needle : String) : Bool :=
  charsInfix needle.data hay.data

/-! ### Concrete data used by witnesses and counterexamples -/

/-- Periods for the nested-period scenario: "A" spans the whole window,
"B" is nested inside it, so the last period in sort-by-start order
("B") is not the latest-ending one ("A"). -/
def cexPeriods : List Period :=
  [⟨"A", "2020-01-01", "2020-04-10", 0⟩, ⟨"B", "2020-02-20", "2020-03-01", 1⟩]

/-- Parsed form of `cexPeriods[0]`. -/
def cexA : VPeriod := ⟨"A", ⟨2020, 1, 1⟩, ⟨2020, 4, 10⟩⟩

/-- Parsed form of `cexPeriods[1]`. -/
def cexB : VPeriod := ⟨"B", ⟨2020, 2, 20⟩, ⟨2020, 3, 1⟩⟩

/-- Two separated periods (a 5-day gap between them) used to exercise
the pairwise scan. -/
def scanPs : List Period :=
  [⟨"p", "2020-01-01", "2020-01-05", 0⟩, ⟨"q", "2020-01-10", "2020-01-20", 1⟩]

/-- Parsed form of `scanPs[0]`. -/
def scanP : VPeriod := ⟨"p", ⟨2020, 1, 1⟩, ⟨2020, 1, 5⟩⟩

/-- Parsed form of `scanPs[1]`. -/
def scanQ : VPeriod := ⟨"q", ⟨2020, 1, 10⟩, ⟨2020, 1, 20⟩⟩

/-- The result of the fixed sale (buy 300000 on 2012-08-01, sell 600000
on 2020-08-01, one fully exempt period covering the window). -/
def exemptScenarioResult : CGTResult :=
  ⟨2922, 0, 2922, 0, 0, 1, 300000, 0, 300000, 600000, 300000, 300000, 0, 1/2,
    0, [⟨"main", "2012-08-01", "2020-08-01", 2922, 0, 0, 2922⟩]⟩

/-- Two adjacent one-day periods exactly covering a two-day window. -/
def permPs1 : List Period :=
  [⟨"a", "2020-01-01", "2020-01-02", 0⟩, ⟨"b", "2020-01-02", "2020-01-03", 1⟩]

/-- `permPs1` with the two periods swapped. -/
def permPs2 : List Period :=
  [⟨"b", "2020-01-02", "2020-01-03", 1⟩, ⟨"a", "2020-01-01", "2020-01-02", 0⟩]

/-- Result of the calculator on `permPs1` (buy 1, sell 2, two days). -/
def permRes1 : CGTResult :=
  ⟨2, 1, 1, 0, 1/2, 1/2, 1, 0, 1, 2, 1, 1, 1/2, 0, 1/2,
    [⟨"a", "2020-01-01", "2020-01-02", 1, 0, 0, 1⟩,
     ⟨"b", "2020-01-02", "2020-01-03", 1, 1, 1, 0⟩]⟩

/-- Result of the calculator on `permPs2`: same scalars, breakdown in
the swapped input order. -/
def permRes2 : CGTResult :=
  ⟨2, 1, 1, 0, 1/2, 1/2, 1, 0, 1, 2, 1, 1, 1/2, 0, 1/2,
    [⟨"b", "2020-01-02", "2020-01-03", 1, 1, 1, 0⟩,
     ⟨"a", "2020-01-01", "2020-01-02", 1, 0, 0, 1⟩]⟩

/-! ### Helper lemmas -/

theorem parsesOkB_iff (p : Period) :
    parsesOkB p = true ↔
      (∃ d, parse_date p.start = .ok d) ∧ (∃ d, parse_date p.end_ = .ok d) := by
  unfold parsesOkB
  cases h1 : parse_date p.start <;> cases h2 : parse_date p.end_ <;> simp

theorem povDays_eq (dbuy dsell : ℤ) (p : Period) (ds de : Date)
    (hs : parse_date p.start = .ok ds) (he : parse_date p.end_ = .ok de) :
    povDays dbuy dsell p = days_overlap dbuy dsell (toDays ds) (toDays de) := by
  unfold povDays; rw [hs, he]

theorem pStart_eq (p : Period) (d : Date) (hs : parse_date p.start = .ok d) :
    pStart p = toDays d := by
  unfold pStart; rw [hs]

theorem pEnd_eq (p : Period) (d : Date) (he : parse_date p.end_ = .ok d) :
    pEnd p = toDays d := by
  unfold pEnd; rw [he]

theorem periodBad_eq (p : Period) (ds de : Date)
    (hs : parse_date p.start = .ok ds) (he : parse_date p.end_ = .ok de) :
    periodBad p = decide (toDays de ≤ toDays ds) := by
  unfold periodBad; rw [hs, he]

theorem runPeriods_ok (dbuy dsell : ℤ) (ps : List Period)
    (h : ∀ p ∈ ps, parsesOkB p = true) :
    runPeriods dbuy dsell ps = .ok
      ((ps.map fun p => (povDays dbuy dsell p : ℚ) * p.taxable_factor).sum,
       (ps.map fun p => (povDays dbuy dsell p : ℚ) * (1 - p.taxable_factor)).sum,
       ps.map (pentry dbuy dsell)) := by
  induction ps with
  | nil => simp [runPeriods]
  | cons p rest ih =>
    obtain ⟨⟨ds, hs⟩, ⟨de, he⟩⟩ :=
      (parsesOkB_iff p).mp (h p (List.mem_cons_self p rest))
    have hrest : ∀ q ∈ rest, parsesOkB q = true :=
      fun q hq => h q (List.mem_cons_of_mem p hq)
    simp only [runPeriods, hs, he, ih hrest, List.map_cons, List.sum_cons]
    rw [povDays_eq dbuy dsell p ds de hs he, pentry,
      povDays_eq dbuy dsell p ds de hs he]

theorem runPeriods_isOk (dbuy dsell : ℤ) (ps : List Period)
    (x : ℚ × ℚ × List PBreakdown) (h : runPeriods dbuy dsell ps = .ok x) :
    ∀ p ∈ ps, parsesOkB p = true := by
  induction ps generalizing x with
  | nil => intro q hq; cases hq
  | cons p rest ih =>
    intro q hq
    unfold runPeriods at h
    cases hs : parse_date p.start with
    | error m => rw [hs] at h; simp at h
    | ok ds =>
      rw [hs] at h
      cases he : parse_date p.end_ with
      | error m => rw [he] at h; simp at h
      | ok de =>
        rw [he] at h
        cases hr : runPeriods dbuy dsell rest with
        | error m => rw [hr] at h; simp at h
        | ok y =>
          rcases List.mem_cons.mp hq with rfl | hq'
          · rw [parsesOkB_iff]; exact ⟨⟨ds, hs⟩, ⟨de, he⟩⟩
          · exact ih y hr q hq'

theorem calculate_ok (bp sp op cw : ℚ) (bs ss : String) (ps : List Period)
    (db ds : Date) (hb : parse_date bs = .ok db) (hsell : parse_date ss = .ok ds)
    (hlt : toDays db < toDays ds) (hp : ∀ p ∈ ps, parsesOkB p = true) :
    calculate_cgt_periods bp bs sp ss op cw ps =
      .ok (calcResult bp sp op cw (toDays db) (toDays ds) ps) := by
  have h1 : ¬(toDays ds ≤ toDays db) := not_le.mpr hlt
  have h2 : (0 : ℤ) < toDays ds - toDays db := by omega
  simp only [calculate_cgt_periods, hb, hsell, h1, if_false,
    runPeriods_ok _ _ _ hp, calcResult, h2, if_true]

theorem calculate_isOk (bp sp op cw : ℚ) (bs ss : String) (ps : List Period)
    (r : CGTResult) (h : calculate_cgt_periods bp bs sp ss op cw ps = .ok r) :
    ∃ db ds, parse_date bs = .ok db ∧ parse_date ss = .ok ds ∧
      toDays db < toDays ds ∧ (∀ p ∈ ps, parsesOkB p = true) ∧
      r = calcResult bp sp op cw (toDays db) (toDays ds) ps := by
  have h0 := h
  unfold calculate_cgt_periods at h
  cases hb : parse_date bs with
  | error m => simp only [hb] at h; exact Except.noConfusion h
  | ok db =>
    simp only [hb] at h
    cases hsell : parse_date ss with
    | error m => simp only [hsell] at h; exact Except.noConfusion h
    | ok ds =>
      simp only [hsell] at h
      by_cases hle : toDays ds ≤ toDays db
      · rw [if_pos hle] at h; simp at h
      · rw [if_neg hle] at h
        have hlt : toDays db < toDays ds := not_le.mp hle
        have hpp : ∀ p ∈ ps, parsesOkB p = true := by
          cases hr : runPeriods (toDays db) (toDays ds) ps with
          | error m => simp only [hr] at h; exact Except.noConfusion h
          | ok y => exact runPeriods_isOk _ _ _ _ hr
        refine ⟨db, ds, rfl, rfl, hlt, hpp, ?_⟩
        have hc := calculate_ok bp sp op cw bs ss ps db ds hb hsell hlt hpp
        exact (Except.ok.inj (h0.symm.trans hc))

theorem scanWarnings_eq_scanSpec :
    ∀ (l : List VPeriod) (prev : VPeriod), scanWarnings prev l = scanSpec prev l := by
  intro l
  induction l with
  | nil => intro prev; rfl
  | cons c rest ih => intro prev; simp only [scanWarnings, scanSpec]; rw [ih]

theorem validate_ok_decomp (b s : String) (ps : List Period) (db ds : Date)
    (parsed : List VPeriod) (first : VPeriod) (rest : List VPeriod)
    (hne : ps ≠ []) (hb : parse_date b = .ok db) (hsell : parse_date s = .ok ds)
    (hparse : parseAllV ps = .ok parsed) (hsort : sortByStart parsed = first :: rest) :
    validate_periods b s ps = .ok
      ((if toDays db < toDays first.s then [gapBeforeMsg db first] else []) ++
       (if toDays (lastOf first rest).e < toDays ds then
          [gapAfterMsg (lastOf first rest) ds] else []) ++
       scanWarnings first rest) := by
  cases ps with
  | nil => exact absurd rfl hne
  | cons p rest' =>
    simp only [validate_periods, hb, hsell, hparse, hsort, List.append_assoc]

theorem parseAllV_find (ps : List Period) (hp : ∀ p ∈ ps, parsesOkB p = true) :
    (∀ q, ps.find? periodBad = some q →
      parseAllV ps = .error (invalidPeriodMsg q.label)) ∧
    (ps.find? periodBad = none →
      ∃ parsed, parseAllV ps = .ok parsed ∧ parsed.length = ps.length) := by
  induction ps with
  | nil => exact ⟨fun q hq => by simp at hq, fun _ => ⟨[], rfl, rfl⟩⟩
  | cons p rest ih =>
    obtain ⟨⟨ds, hs⟩, ⟨de, he⟩⟩ :=
      (parsesOkB_iff p).mp (hp p (List.mem_cons_self p rest))
    have hrest : ∀ q ∈ rest, parsesOkB q = true :=
      fun q hq => hp q (List.mem_cons_of_mem p hq)
    by_cases hbp : toDays de ≤ toDays ds
    · have hfind : (p :: rest).find? periodBad = some p :=
        List.find?_cons_of_pos rest (by rw [periodBad_eq p ds de hs he]; exact decide_eq_true hbp)
      refine ⟨fun q hq => ?_, fun hnone => ?_⟩
      · rw [hfind] at hq
        cases hq
        simp only [parseAllV, hs, he, if_pos hbp]
      · rw [hfind] at hnone; cases hnone
    · have hfind : (p :: rest).find? periodBad = rest.find? periodBad :=
        List.find?_cons_of_neg rest (by rw [periodBad_eq p ds de hs he]; simp [hbp])
      refine ⟨fun q hq => ?_, fun hnone => ?_⟩
      · rw [hfind] at hq
        have hre := (ih hrest).1 q hq
        simp only [parseAllV, hs, he, if_neg hbp, hre]
      · rw [hfind] at hnone
        obtain ⟨parsed, hpr, hlen⟩ := (ih hrest).2 hnone
        refine ⟨⟨p.label, ds, de⟩ :: parsed, ?_, by simp [hlen]⟩
        simp only [parseAllV, hs, he, if_neg hbp, hpr]

theorem roundEven_intCast (z : ℤ) : roundEven (z : ℚ) = z := by
  unfold roundEven
  rw [Int.fract_intCast, Int.floor_intCast]
  norm_num

theorem roundEven_add_sub (t : ℚ) : roundEven t + roundEven (10000 - t) = 10000 := by
  by_cases h0 : Int.fract t = 0
  · have ht : t = (⌊t⌋ : ℚ) := by
      have h := Int.floor_add_fract t
      rw [h0, add_zero] at h
      exact h.symm
    rw [ht]
    have hc : (10000 : ℚ) - (⌊t⌋ : ℚ) = ((10000 - ⌊t⌋ : ℤ) : ℚ) := by push_cast; ring
    rw [hc, roundEven_intCast, roundEven_intCast]
    omega
  · have hfr : Int.fract ((10000 : ℚ) - t) = 1 - Int.fract t := by
      have hrw : (10000 : ℚ) - t = ((10000 : ℤ) : ℚ) + (-t) := by push_cast; ring
      rw [hrw, Int.fract_int_add, Int.fract_neg h0]
    have hfl : ⌊(10000 : ℚ) - t⌋ = 9999 - ⌊t⌋ := by
      have h1 := Int.floor_add_fract ((10000 : ℚ) - t)
      have h2 := Int.floor_add_fract t
      rw [hfr] at h1
      have hq : (⌊(10000 : ℚ) - t⌋ : ℚ) = ((9999 - ⌊t⌋ : ℤ) : ℚ) := by push_cast; linarith
      exact_mod_cast hq
    have hpos : 0 < Int.fract t := lt_of_le_of_ne (Int.fract_nonneg t) (Ne.symm h0)
    have hlt1 : Int.fract t < 1 := Int.fract_lt_one t
    unfold roundEven
    rw [hfr, hfl]
    rcases lt_trichotomy (Int.fract t) (1/2 : ℚ) with hc | hc | hc
    · rw [if_pos hc, if_neg (show ¬(1 - Int.fract t < 1/2) by linarith),
        if_pos (show (1/2 : ℚ) < 1 - Int.fract t by linarith)]
      omega
    · rw [hc]
      norm_num
      split_ifs <;> omega
    · rw [if_neg (show ¬(Int.fract t < 1/2) by linarith), if_pos hc,
        if_pos (show 1 - Int.fract t < 1/2 by linarith)]
      omega

theorem round4_add_round4_compl (x : ℚ) : round4 x + round4 (1 - x) = 1 := by
  unfold round4
  have h : (1 - x) * 10000 = 10000 - x * 10000 := by ring
  rw [h, div_add_div_same, ← Int.cast_add, roundEven_add_sub (x * 10000)]
  norm_num

theorem mem_foldr_union {α : Type} [DecidableEq α] (l : List (Finset α))
    (x : Finset α) (hx : x ∈ l) : x ⊆ l.foldr (· ∪ ·) ∅ := by
  induction l with
  | nil => cases hx
  | cons a t ih =>
    rcases List.mem_cons.mp hx with rfl | hx'
    · exact Finset.subset_union_left
    · exact (ih hx').trans Finset.subset_union_right

theorem disjoint_foldr_union {α : Type} [DecidableEq α] (a : Finset α)
    (l : List (Finset α)) (h : ∀ b ∈ l, Disjoint a b) :
    Disjoint a (l.foldr (· ∪ ·) ∅) := by
  induction l with
  | nil => simp
  | cons b t ih =>
    simp only [List.foldr_cons]
    rw [Finset.disjoint_union_right]
    exact ⟨h b (List.mem_cons_self b t),
      ih (fun c hc => h c (List.mem_cons_of_mem b hc))⟩

theorem card_foldr_union {α : Type} [DecidableEq α] (l : List (Finset α))
    (h : l.Pairwise Disjoint) :
    (l.foldr (· ∪ ·) ∅).card = (l.map Finset.card).sum := by
  induction l with
  | nil => simp
  | cons a t ih =>
    rcases List.pairwise_cons.mp h with ⟨h1, h2⟩
    simp only [List.foldr_cons, List.map_cons, List.sum_cons]
    rw [Finset.card_union_of_disjoint (disjoint_foldr_union a t h1), ih h2]

theorem days_overlap_eq_card (B S s e : ℤ) :
    days_overlap B S s e = ((Finset.Ico s e ∩ Finset.Ico B S).card : ℤ) := by
  rw [Finset.Ico_inter_Ico, Int.card_Ico, max_comm s B, min_comm e S]
  unfold days_overlap
  rcases le_or_lt (min S e) (max B s) with hc | hc
  · rw [if_pos hc, Int.toNat_of_nonpos (by linarith)]
    norm_num
  · rw [if_neg (not_le.mpr hc), Int.toNat_of_nonneg (by linarith)]

theorem natCast_listSum_map {β : Type} (l : List β) (f : β → ℕ) :
    ((l.map f).sum : ℚ) = (l.map fun b => ((f b : ℕ) : ℚ)).sum := by
  induction l with
  | nil => simp
  | cons a t ih => simp [List.sum_cons, Nat.cast_add, ih]

theorem sum_weights (B S : ℤ) (ps : List Period) :
    (ps.map fun p => (povDays B S p : ℚ) * p.taxable_factor).sum +
    (ps.map fun p => (povDays B S p : ℚ) * (1 - p.taxable_factor)).sum =
    (ps.map fun p => ((povDays B S p : ℤ) : ℚ)).sum := by
  induction ps with
  | nil => simp
  | cons p t ih =>
    simp only [List.map_cons, List.sum_cons]
    linear_combination ih

theorem dropWhile_append_of_all {α : Type} (p : α → Bool) (a b : List α)
    (h : a.all p = true) : (a ++ b).dropWhile p = b.dropWhile p := by
  induction a with
  | nil => rfl
  | cons x xs ih =>
    simp only [List.all_cons, Bool.and_eq_true] at h
    simp only [List.cons_append, List.dropWhile_cons, h.1, if_true, ih h.2]

theorem dropWhile_eq_nil_of_all {α : Type} (p : α → Bool) (l : List α)
    (h : l.all p = true) : l.dropWhile p = [] := by
  have hd := dropWhile_append_of_all p l [] h
  simpa using hd

theorem dropWhile_append_of_ne {α : Type} (p : α → Bool) (a b : List α)
    (h : a.dropWhile p ≠ []) : (a ++ b).dropWhile p = a.dropWhile p ++ b := by
  induction a with
  | nil => exact absurd rfl h
  | cons x xs ih =>
    by_cases hx : p x = true
    · have h' : xs.dropWhile p ≠ [] := by
        rwa [List.dropWhile_cons, if_pos hx] at h
      rw [List.cons_append, List.dropWhile_cons, if_pos hx,
        List.dropWhile_cons, if_pos hx, ih h']
    · rw [List.cons_append, List.dropWhile_cons, List.dropWhile_cons]
      simp [hx]

theorem trimChars_pad (pre post s : List Char)
    (hpre : pre.all Char.isWhitespace = true)
    (hpost : post.all Char.isWhitespace = true) :
    trimChars (pre ++ s ++ post) = trimChars s := by
  unfold trimChars
  rw [List.append_assoc, dropWhile_append_of_all _ pre _ hpre]
  by_cases hs : s.dropWhile Char.isWhitespace = []
  · rw [dropWhile_append_of_all _ s _ (by
      rw [List.all_eq_true]
      exact fun a ha => List.dropWhile_eq_nil_iff.mp hs a ha)]
    rw [dropWhile_eq_nil_of_all _ post hpost, hs]
  · rw [dropWhile_append_of_ne _ s post hs, List.reverse_append,
      dropWhile_append_of_all _ post.reverse _ (by
        rw [List.all_eq_true]
        intro a ha
        rw [List.mem_reverse] at ha
        exact List.all_eq_true.mp hpost a ha)]

theorem roundEven_eq_of_intCast (q : ℚ) (z : ℤ) (h : q = (z : ℚ)) :
    roundEven q = z := by
  rw [h, roundEven_intCast]

theorem round4_zero : round4 0 = 0 := by
  unfold round4
  rw [roundEven_eq_of_intCast ((0 : ℚ) * 10000) 0 (by norm_num)]
  norm_num

theorem round4_one : round4 1 = 1 := by
  unfold round4
  rw [roundEven_eq_of_intCast ((1 : ℚ) * 10000) 10000 (by norm_num)]
  norm_num

theorem round4_half : round4 (1/2) = 1/2 := by
  unfold round4
  rw [roundEven_eq_of_intCast ((1/2 : ℚ) * 10000) 5000 (by norm_num)]
  norm_num

theorem eval_exempt :
    calculate_cgt_periods 300000 "2012-08-01" 600000 "2020-08-01" 1 0
      [⟨"main", "2012-08-01", "2020-08-01", 0⟩] = .ok exemptScenarioResult := by
  have hb : parse_date "2012-08-01" = .ok ⟨2012, 8, 1⟩ := by decide
  have hs : parse_date "2020-08-01" = .ok ⟨2020, 8, 1⟩ := by decide
  have hB : toDays (⟨2012, 8, 1⟩ : Date) = 734716 := by decide
  have hS : toDays (⟨2020, 8, 1⟩ : Date) = 737638 := by decide
  have hov : povDays 734716 737638 ⟨"main", "2012-08-01", "2020-08-01", 0⟩ = 2922 := by
    decide
  rw [calculate_ok 300000 600000 1 0 "2012-08-01" "2020-08-01" _ ⟨2012, 8, 1⟩
    ⟨2020, 8, 1⟩ hb hs (by decide) (by decide), hB, hS]
  congr 1
  simp only [calcResult, exemptScenarioResult, pentry, hov, List.map_cons,
    List.map_nil, List.sum_cons, List.sum_nil]
  norm_num [round4_zero, round4_one]

theorem eval_rental :
    calculate_cgt_periods 300000 "2012-08-01" 600000 "2020-08-01" 1 0
      [⟨"main", "2012-08-01", "2020-08-01", 1⟩] =
      .ok ⟨2922, 2922, 0, 0, 1, 0, 300000, 0, 300000, 600000, 300000, 300000,
        300000, 1/2, 150000,
        [⟨"main", "2012-08-01", "2020-08-01", 2922, 1, 2922, 0⟩]⟩ := by
  have hb : parse_date "2012-08-01" = .ok ⟨2012, 8, 1⟩ := by decide
  have hs : parse_date "2020-08-01" = .ok ⟨2020, 8, 1⟩ := by decide
  have hB : toDays (⟨2012, 8, 1⟩ : Date) = 734716 := by decide
  have hS : toDays (⟨2020, 8, 1⟩ : Date) = 737638 := by decide
  have hov : povDays 734716 737638 ⟨"main", "2012-08-01", "2020-08-01", 1⟩ = 2922 := by
    decide
  rw [calculate_ok 300000 600000 1 0 "2012-08-01" "2020-08-01" _ ⟨2012, 8, 1⟩
    ⟨2020, 8, 1⟩ hb hs (by decide) (by decide), hB, hS]
  congr 1
  simp only [calcResult, pentry, hov, List.map_cons, List.map_nil,
    List.sum_cons, List.sum_nil]
  norm_num [round4_zero, round4_one]

theorem eval_perm1 :
    calculate_cgt_periods 1 "2020-01-01" 2 "2020-01-03" 1 0 permPs1 =
      .ok permRes1 := by
  have hb : parse_date "2020-01-01" = .ok ⟨2020, 1, 1⟩ := by decide
  have hs : parse_date "2020-01-03" = .ok ⟨2020, 1, 3⟩ := by decide
  have hB : toDays (⟨2020, 1, 1⟩ : Date) = 737425 := by decide
  have hS : toDays (⟨2020, 1, 3⟩ : Date) = 737427 := by decide
  have hov1 : povDays 737425 737427 ⟨"a", "2020-01-01", "2020-01-02", 0⟩ = 1 := by decide
  have hov2 : povDays 737425 737427 ⟨"b", "2020-01-02", "2020-01-03", 1⟩ = 1 := by decide
  rw [show permPs1 = [⟨"a", "2020-01-01", "2020-01-02", 0⟩,
    ⟨"b", "2020-01-02", "2020-01-03", 1⟩] from rfl]
  rw [calculate_ok 1 2 1 0 "2020-01-01" "2020-01-03" _ ⟨2020, 1, 1⟩ ⟨2020, 1, 3⟩
    hb hs (by decide) (by decide), hB, hS]
  congr 1
  simp only [calcResult, permRes1, pentry, hov1, hov2, List.map_cons,
    List.map_nil, List.sum_cons, List.sum_nil]
  norm_num [round4_half]

theorem eval_perm2 :
    calculate_cgt_periods 1 "2020-01-01" 2 "2020-01-03" 1 0 permPs2 =
      .ok permRes2 := by
  have hb : parse_date "2020-01-01" = .ok ⟨2020, 1, 1⟩ := by decide
  have hs : parse_date "2020-01-03" = .ok ⟨2020, 1, 3⟩ := by decide
  have hB : toDays (⟨2020, 1, 1⟩ : Date) = 737425 := by decide
  have hS : toDays (⟨2020, 1, 3⟩ : Date) = 737427 := by decide
  have hov1 : povDays 737425 737427 ⟨"a", "2020-01-01", "2020-01-02", 0⟩ = 1 := by decide
  have hov2 : povDays 737425 737427 ⟨"b", "2020-01-02", "2020-01-03", 1⟩ = 1 := by decide
  rw [show permPs2 = [⟨"b", "2020-01-02", "2020-01-03", 1⟩,
    ⟨"a", "2020-01-01", "2020-01-02", 0⟩] from rfl]
  rw [calculate_ok 1 2 1 0 "2020-01-01" "2020-01-03" _ ⟨2020, 1, 1⟩ ⟨2020, 1, 3⟩
    hb hs (by decide) (by decide), hB, hS]
  congr 1
  simp only [calcResult, permRes2, pentry, hov1, hov2, List.map_cons,
    List.map_nil, List.sum_cons, List.sum_nil]
  norm_num [round4_half]

theorem validate_error_of_bad (b s : String) (ps : List Period) (db ds : Date)
    (q : Period) (hb : parse_date b = .ok db) (hsell : parse_date s = .ok ds)
    (hp : ∀ p ∈ ps, parsesOkB p = true) (hne : ps ≠ [])
    (hfind : ps.find? periodBad = some q) :
    validate_periods b s ps = .error (invalidPeriodMsg q.label) := by
  cases ps with
  | nil => exact absurd rfl hne
  | cons p rest =>
    have hpa := (parseAllV_find (p :: rest) hp).1 q hfind
    simp only [validate_periods, hb, hsell, hpa]

theorem validate_ok_of_good (b s : String) (ps : List Period) (db ds : Date)
    (hb : parse_date b = .ok db) (hsell : parse_date s = .ok ds)
    (hp : ∀ p ∈ ps, parsesOkB p = true) (hne : ps ≠ [])
    (hfind : ps.find? periodBad = none) :
    ∃ ws, validate_periods b s ps = .ok ws := by
  obtain ⟨parsed, hpr, hlen⟩ := (parseAllV_find ps hp).2 hfind
  have hlen2 : (sortByStart parsed).length = parsed.length :=
    (List.perm_insertionSort _ parsed).length_eq
  cases hsort : sortByStart parsed with
  | nil =>
    exfalso
    rw [hsort] at hlen2
    simp only [List.length_nil] at hlen2
    rw [hlen] at hlen2
    cases ps with
    | nil => exact absurd rfl hne
    | cons a l => simp at hlen2
  | cons f rs =>
    exact ⟨_, validate_ok_decomp b s ps db ds parsed f rs hne hb hsell hpr hsort⟩

theorem povDays_eq_startEnd (B S : ℤ) (p : Period) (h : parsesOkB p = true) :
    povDays B S p = days_overlap B S (pStart p) (pEnd p) := by
  obtain ⟨⟨ds, hs⟩, ⟨de, he⟩⟩ := (parsesOkB_iff p).mp h
  rw [povDays_eq B S p ds de hs he, pStart_eq p ds hs, pEnd_eq p de he]

theorem Ico_subset_bounds {B S a b : ℤ} (hab : a < b)
    (hsub : Finset.Ico a b ⊆ Finset.Ico B S) : B ≤ a ∧ b ≤ S := by
  have h1 : a ∈ Finset.Ico a b := Finset.mem_Ico.mpr ⟨le_refl a, hab⟩
  have h2 : b - 1 ∈ Finset.Ico a b := Finset.mem_Ico.mpr ⟨by omega, by omega⟩
  have g1 := Finset.mem_Ico.mp (hsub h1)
  have g2 := Finset.mem_Ico.mp (hsub h2)
  omega

theorem sum_pov_eq_holding (B S : ℤ) (ps : List Period)
    (hp : ∀ p ∈ ps, parsesOkB p = true)
    (hdisj : ps.Pairwise (fun a b =>
      Disjoint (Finset.Ico (pStart a) (pEnd a)) (Finset.Ico (pStart b) (pEnd b))))
    (hcover : (ps.map fun p => Finset.Ico (pStart p) (pEnd p)).foldr (· ∪ ·) ∅ =
      Finset.Ico B S) (hBS : B < S) :
    (ps.map fun p => ((povDays B S p : ℤ) : ℚ)).sum = ((S - B : ℤ) : ℚ) := by
  have hsub : ∀ p ∈ ps, Finset.Ico (pStart p) (pEnd p) ⊆ Finset.Ico B S := by
    intro p hpmem
    rw [← hcover]
    exact mem_foldr_union _ _ (List.mem_map_of_mem _ hpmem)
  have hcard : ∀ p ∈ ps, ((povDays B S p : ℤ) : ℚ) =
      (((Finset.Ico (pStart p) (pEnd p)).card : ℕ) : ℚ) := by
    intro p hpmem
    rw [povDays_eq_startEnd B S p (hp p hpmem), days_overlap_eq_card,
      Finset.inter_eq_left.mpr (hsub p hpmem)]
    push_cast
    ring
  rw [List.map_congr_left hcard, ← natCast_listSum_map ps
    (fun p => (Finset.Ico (pStart p) (pEnd p)).card)]
  have hdisj2 : (ps.map fun p => Finset.Ico (pStart p) (pEnd p)).Pairwise Disjoint :=
    List.Pairwise.map _ (fun a b hab => hab) hdisj
  have hzz := card_foldr_union _ hdisj2
  rw [hcover, Int.card_Ico, List.map_map] at hzz
  have hcomp : (ps.map (Finset.card ∘ fun p => Finset.Ico (pStart p) (pEnd p))) =
      ps.map (fun p => (Finset.Ico (pStart p) (pEnd p)).card) := rfl
  rw [hcomp] at hzz
  rw [← hzz]
  have hnn : ((S - B).toNat : ℤ) = S - B := Int.toNat_of_nonneg (by omega)
  exact_mod_cast congrArg (fun z : ℤ => (z : ℚ)) hnn

/-! ### Claim theorems -/

/-- C1: For the fixed sale buy_price=300000, buy_date 2012-08-01,
sell_price=600000, sell_date 2020-08-01, ownership 1.0, capital works 0
and a single period spanning the window, `calculate_cgt_periods`
returns holding_days 2922 and discount_rate 0.5; with taxable_factor 0
it returns taxable_days 0, exempt_days 2922, taxable_fraction 0 and
final taxable gain 0, and with taxable_factor 1 it returns
taxable_fraction 1, raw gain 300000 and final taxable gain 150000. -/
theorem claim1_fixed_sale_scenarios :
    calculate_cgt_periods 300000 "2012-08-01" 600000 "2020-08-01" 1 0
        [⟨"main", "2012-08-01", "2020-08-01", 0⟩] =
      .ok ⟨2922, 0, 2922, 0, 0, 1, 300000, 0, 300000, 600000, 300000, 300000,
        0, 1/2, 0, [⟨"main", "2012-08-01", "2020-08-01", 2922, 0, 0, 2922⟩]⟩ ∧
    calculate_cgt_periods 300000 "2012-08-01" 600000 "2020-08-01" 1 0
        [⟨"main", "2012-08-01", "2020-08-01", 1⟩] =
      .ok ⟨2922, 2922, 0, 0, 1, 0, 300000, 0, 300000, 600000, 300000, 300000,
        300000, 1/2, 150000,
        [⟨"main", "2012-08-01", "2020-08-01", 2922, 1, 2922, 0⟩]⟩ :=
  ⟨eval_exempt, eval_rental⟩

/-- C7: For every input accepted by `calculate_cgt_periods` with
holding_days > 0, the (4-decimal-rounded) taxable_fraction and
exempt_fraction fields of the result sum to exactly 1. -/
theorem claim7_fractions_sum_to_one (bp sp op cw : ℚ) (bs ss : String)
    (ps : List Period) (r : CGTResult)
    (h : calculate_cgt_periods bp bs sp ss op cw ps = .ok r)
    (hpos : 0 < r.holding_days) :
    r.taxable_fraction + r.exempt_fraction = 1 := by
  obtain ⟨db, ds, hb, hsell, hlt, hpp, hr⟩ := calculate_isOk bp sp op cw bs ss ps r h
  subst hr
  simp only [calcResult]
  exact round4_add_round4_compl _

/-- C7 witness: the fixed exempt-period sale satisfies the fraction
identity. -/
theorem claim7_witness :
    exemptScenarioResult.taxable_fraction + exemptScenarioResult.exempt_fraction = 1 :=
  claim7_fractions_sum_to_one 300000 600000 1 0 "2012-08-01" "2020-08-01"
    [⟨"main", "2012-08-01", "2020-08-01", 0⟩] exemptScenarioResult
    eval_exempt (by decide)

/-- C8: the computed overlap equals
max(0, min(window.end, period.end) - max(window.start, period.start)),
is never negative, and is 0 when the period lies entirely outside the
holding window. -/
theorem claim8_days_overlap_clamped :
    ∀ s1 e1 s2 e2 : ℤ,
      days_overlap s1 e1 s2 e2 = max 0 (min e1 e2 - max s1 s2) ∧
      0 ≤ days_overlap s1 e1 s2 e2 ∧
      ((e2 ≤ s1 ∨ e1 ≤ s2) → days_overlap s1 e1 s2 e2 = 0) := by
  intro s1 e1 s2 e2
  simp only [days_overlap]
  refine ⟨?_, ?_, ?_⟩
  · split_ifs with hc
    · exact (max_eq_left (by linarith)).symm
    · exact (max_eq_right (by linarith [not_le.mp hc])).symm
  · split_ifs with hc
    · exact le_refl 0
    · linarith [not_le.mp hc]
  · intro hout
    split_ifs with hc
    · rfl
    · exfalso
      have h1 := not_le.mp hc
      rcases hout with h | h
      · linarith [min_le_right e1 e2, le_max_left s1 s2]
      · linarith [min_le_left e1 e2, le_max_right s1 s2]

/-- C8 witness: a period entirely after the window has overlap 0. -/
theorem claim8_witness : days_overlap 0 10 20 30 = 0 :=
  (claim8_days_overlap_clamped 0 10 20 30).2.2 (Or.inr (by decide))

/-- C6 counterexample: on an unparseable input the raised error is the
fixed message "Invalid date format. Use YYYY-MM-DD or DD/MM/YYYY",
which does not contain the offending input string (the same message is
raised for every unparseable input), refuting "an InvalidDateFormat
error that carries the offending input string". -/
theorem claim6_counterexample :
    parse_date "not-a-date" = .error invalidDateMsg ∧
    strContains invalidDateMsg "not-a-date" = false ∧
    parse_date "also !! bad" = .error invalidDateMsg := by
  refine ⟨by decide, by decide, by decide⟩

/-- C6 amended: `parse_date` trims whitespace and then tries YYYY-MM-DD
first, DD/MM/YYYY second, returning the date of the first format that
succeeds (so "2020-01-15" and "15/01/2020" parse to the same date
value); if neither format parses it fails with the fixed error message
"Invalid date format. Use YYYY-MM-DD or DD/MM/YYYY", which does not
carry the offending input string. -/
theorem claim6_amended :
    (∀ (pre post : List Char) (s : String), pre.all Char.isWhitespace = true →
      post.all Char.isWhitespace = true →
      parse_date ⟨pre ++ s.data ++ post⟩ = parse_date s) ∧
    (∀ (s : String) (d : Date), tryYMD (trimChars s.data) = some d →
      parse_date s = .ok d) ∧
    (∀ (s : String) (d : Date), tryYMD (trimChars s.data) = none →
      tryDMY (trimChars s.data) = some d → parse_date s = .ok d) ∧
    (∀ s : String, tryYMD (trimChars s.data) = none →
      tryDMY (trimChars s.data) = none → parse_date s = .error invalidDateMsg) ∧
    parse_date "2020-01-15" = parse_date "15/01/2020" ∧
    parse_date "2020-01-15" = .ok ⟨2020, 1, 15⟩ := by
  refine ⟨?_, ?_, ?_, ?_, by decide, by decide⟩
  · intro pre post s hpre hpost
    unfold parse_date
    rw [show (String.mk (pre ++ s.data ++ post)).data = pre ++ s.data ++ post from rfl,
      trimChars_pad pre post s.data hpre hpost]
  · intro s d h
    unfold parse_date
    rw [h]
  · intro s d h1 h2
    unfold parse_date
    rw [h1, h2]
  · intro s h1 h2
    unfold parse_date
    rw [h1, h2]

/-- C6 witness: surrounding whitespace does not change the parse. -/
theorem claim6_witness :
    parse_date ⟨[' '] ++ "15/01/2020".data ++ ['\n']⟩ = parse_date "15/01/2020" :=
  claim6_amended.1 [' '] ['\n'] "15/01/2020" (by decide) (by decide)

/-- C3 counterexample: with period "A" spanning the whole holding
window and "B" nested inside it, the running maximum of the end dates
equals the sell date, so the claim predicts no gap-after warning; but
the code keys the check on the last period in sort-by-start order ("B",
which ends 2020-03-01) and emits "a gap of 40 days AFTER the last
period", refuting the claim's "running maximum, not last-in-sort-order"
reading. -/
theorem claim3_counterexample :
    validate_periods "2020-01-01" "2020-04-10" cexPeriods = .ok
      ["There is a gap of 40 days AFTER the last period (from 2020-03-01 to 2020-04-10).",
       "Periods 'A' and 'B' overlap by 50 days."] ∧
    parseAllV cexPeriods = .ok [cexA, cexB] ∧
    sortByStart [cexA, cexB] = [cexA, cexB] ∧
    runningMaxEnd (toDays cexA.e) [cexB] = toDays (⟨2020, 4, 10⟩ : Date) ∧
    parse_date "2020-04-10" = .ok ⟨2020, 4, 10⟩ := by
  refine ⟨by decide, by decide, by decide, by decide, by decide⟩

/-- C3 amended: in `validate_periods` the gap-after-last warning is
emitted if and only if the end of the last period in sort-by-start
order (`parsed[-1]`, not the running maximum of end dates) is before
the sell date, with day count (sell_date - that period's end), and the
check runs before the adjacent-pair scan. -/
theorem claim3_amended (b s : String) (ps : List Period) (db ds : Date)
    (parsed : List VPeriod) (first : VPeriod) (rest : List VPeriod)
    (hne : ps ≠ []) (hb : parse_date b = .ok db) (hsell : parse_date s = .ok ds)
    (hparse : parseAllV ps = .ok parsed)
    (hsort : sortByStart parsed = first :: rest) :
    validate_periods b s ps = .ok
      ((if toDays db < toDays first.s then [gapBeforeMsg db first] else []) ++
       (if toDays (lastOf first rest).e < toDays ds then
          [gapAfterMsg (lastOf first rest) ds] else []) ++
       scanWarnings first rest) :=
  validate_ok_decomp b s ps db ds parsed first rest hne hb hsell hparse hsort

/-- C3 witness: the amended statement applied to the nested-period
scenario (the gap-after check keys on "B", the last in sort order). -/
theorem claim3_witness :
    validate_periods "2020-01-01" "2020-04-10" cexPeriods = .ok
      ((if toDays (⟨2020, 1, 1⟩ : Date) < toDays cexA.s then
          [gapBeforeMsg ⟨2020, 1, 1⟩ cexA] else []) ++
       (if toDays (lastOf cexA [cexB]).e < toDays (⟨2020, 4, 10⟩ : Date) then
          [gapAfterMsg (lastOf cexA [cexB]) ⟨2020, 4, 10⟩] else []) ++
       scanWarnings cexA [cexB]) :=
  claim3_amended "2020-01-01" "2020-04-10" cexPeriods ⟨2020, 1, 1⟩ ⟨2020, 4, 10⟩
    [cexA, cexB] cexA [cexB] (by decide) (by decide) (by decide) (by decide)
    (by decide)

/-- C4: for every valid list of two or more periods, the output of
`validate_periods` is the gap-before and gap-after warnings followed by
the warnings of the claim's frontier scan `scanSpec`: walking the
sorted periods against the running frontier, emitting an overlap
warning with day count (frontier.end - next.start) exactly when
next.start < frontier.end, a gap warning with day count
(next.start - frontier.end) exactly when next.start > frontier.end,
no warning on equality, the frontier becoming whichever period has the
later end date. -/
theorem claim4_pairwise_scan (b s : String) (ps : List Period) (db ds : Date)
    (parsed : List VPeriod) (first : VPeriod) (rest : List VPeriod)
    (hne : ps ≠ []) (hlen : rest ≠ [])
    (hb : parse_date b = .ok db) (hsell : parse_date s = .ok ds)
    (hparse : parseAllV ps = .ok parsed)
    (hsort : sortByStart parsed = first :: rest) :
    validate_periods b s ps = .ok
      ((if toDays db < toDays first.s then [gapBeforeMsg db first] else []) ++
       (if toDays (lastOf first rest).e < toDays ds then
          [gapAfterMsg (lastOf first rest) ds] else []) ++
       scanSpec first rest) := by
  rw [validate_ok_decomp b s ps db ds parsed first rest hne hb hsell hparse hsort,
    scanWarnings_eq_scanSpec]

/-- C4 witness: two periods separated by a 5-day gap produce exactly
the scan warnings of the claim's frontier fold. -/
theorem claim4_witness :
    validate_periods "2020-01-01" "2020-01-20" scanPs = .ok
      ((if toDays (⟨2020, 1, 1⟩ : Date) < toDays scanP.s then
          [gapBeforeMsg ⟨2020, 1, 1⟩ scanP] else []) ++
       (if toDays (lastOf scanP [scanQ]).e < toDays (⟨2020, 1, 20⟩ : Date) then
          [gapAfterMsg (lastOf scanP [scanQ]) ⟨2020, 1, 20⟩] else []) ++
       scanSpec scanP [scanQ]) :=
  claim4_pairwise_scan "2020-01-01" "2020-01-20" scanPs ⟨2020, 1, 1⟩
    ⟨2020, 1, 20⟩ [scanP, scanQ] scanP [scanQ] (by decide) (by decide)
    (by decide) (by decide) (by decide) (by decide)

/-- C5: `validate_periods` fails with the empty-list error when the
period list is empty, before any date string is parsed (it does so for
arbitrary, even unparseable, window strings); for a non-empty list
whose dates all parse it fails with the InvalidPeriod error naming the
first offending period's label exactly when some period's end is not
strictly after its start, and succeeds otherwise. -/
theorem claim5_empty_and_invalid_period :
    (∀ b s : String, validate_periods b s [] = .error emptyPeriodsMsg) ∧
    (∀ (b s : String) (ps : List Period) (db ds : Date) (q : Period),
      parse_date b = .ok db → parse_date s = .ok ds →
      (∀ p ∈ ps, parsesOkB p = true) → ps ≠ [] →
      ps.find? periodBad = some q →
      validate_periods b s ps = .error (invalidPeriodMsg q.label)) ∧
    (∀ (b s : String) (ps : List Period) (db ds : Date),
      parse_date b = .ok db → parse_date s = .ok ds →
      (∀ p ∈ ps, parsesOkB p = true) → ps ≠ [] →
      ps.find? periodBad = none →
      ∃ ws, validate_periods b s ps = .ok ws) ∧
    (∀ (b s : String) (ps : List Period) (db ds : Date),
      parse_date b = .ok db → parse_date s = .ok ds →
      (∀ p ∈ ps, parsesOkB p = true) → ps ≠ [] →
      ((∃ p ∈ ps, periodBad p = true) ↔
        ∃ lab, validate_periods b s ps = .error (invalidPeriodMsg lab))) := by
  refine ⟨fun b s => rfl,
    fun b s ps db ds q hb hsell hp hne hfind =>
      validate_error_of_bad b s ps db ds q hb hsell hp hne hfind,
    fun b s ps db ds hb hsell hp hne hfind =>
      validate_ok_of_good b s ps db ds hb hsell hp hne hfind,
    fun b s ps db ds hb hsell hp hne => ?_⟩
  constructor
  · rintro ⟨p, hpmem, hpbad⟩
    have hne2 : ps.find? periodBad ≠ none := by
      intro hnone
      have := List.find?_eq_none.mp hnone p hpmem
      simp [hpbad] at this
    rcases hq : ps.find? periodBad with _ | q
    · exact absurd hq hne2
    · exact ⟨q.label, validate_error_of_bad b s ps db ds q hb hsell hp hne hq⟩
  · rintro ⟨lab, herr⟩
    rcases hq : ps.find? periodBad with _ | q
    · obtain ⟨ws, hws⟩ := validate_ok_of_good b s ps db ds hb hsell hp hne hq
      rw [hws] at herr
      exact absurd herr (by simp)
    · have hqmem := List.mem_of_find?_eq_some hq
      have hqbad : periodBad q = true := List.find?_some hq
      exact ⟨q, hqmem, hqbad⟩

/-- C5 witness: a period whose end equals its start is rejected with
the InvalidPeriod error naming its label. -/
theorem claim5_witness :
    validate_periods "2020-01-01" "2020-02-01"
      [⟨"x", "2020-01-05", "2020-01-05", 0⟩] = .error (invalidPeriodMsg "x") :=
  claim5_empty_and_invalid_period.2.1 "2020-01-01" "2020-02-01"
    [⟨"x", "2020-01-05", "2020-01-05", 0⟩] ⟨2020, 1, 1⟩ ⟨2020, 2, 1⟩
    ⟨"x", "2020-01-05", "2020-01-05", 0⟩ (by decide) (by decide) (by decide)
    (by decide) (by decide)

/-- C2: for every non-empty list of periods whose dates parse, each with
end strictly after start and taxable_factor in [0,1], pairwise
non-overlapping and exactly covering the holding window (sell after
buy), `calculate_cgt_periods` returns uncovered_days = 0 and
taxable_days + exempt_days = holding_days. -/
theorem claim2_full_cover (bp sp op cw : ℚ) (bs ss : String) (ps : List Period)
    (db ds : Date) (hb : parse_date bs = .ok db) (hsell : parse_date ss = .ok ds)
    (hlt : toDays db < toDays ds) (hne : ps ≠ [])
    (hp : ∀ p ∈ ps, parsesOkB p = true)
    (hpos : ∀ p ∈ ps, pStart p < pEnd p)
    (htf : ∀ p ∈ ps, 0 ≤ p.taxable_factor ∧ p.taxable_factor ≤ 1)
    (hdisj : ps.Pairwise (fun a b =>
      Disjoint (Finset.Ico (pStart a) (pEnd a)) (Finset.Ico (pStart b) (pEnd b))))
    (hcover : (ps.map fun p => Finset.Ico (pStart p) (pEnd p)).foldr (· ∪ ·) ∅ =
      Finset.Ico (toDays db) (toDays ds)) :
    ∃ r, calculate_cgt_periods bp bs sp ss op cw ps = .ok r ∧
      r.uncovered_days = 0 ∧
      r.taxable_days + r.exempt_days = (r.holding_days : ℚ) := by
  have hsum := sum_weights (toDays db) (toDays ds) ps
  have hpov := sum_pov_eq_holding (toDays db) (toDays ds) ps hp hdisj hcover hlt
  refine ⟨_, calculate_ok bp sp op cw bs ss ps db ds hb hsell hlt hp, ?_, ?_⟩
  · simp only [calcResult]
    rw [hsum, hpov]
    ring
  · simp only [calcResult]
    rw [hsum, hpov]

/-- C2 witness: two adjacent one-day periods exactly covering a two-day
window. -/
theorem claim2_witness :
    ∃ r, calculate_cgt_periods 1 "2020-01-01" 2 "2020-01-03" 1 0 permPs1 = .ok r ∧
      r.uncovered_days = 0 ∧
      r.taxable_days + r.exempt_days = (r.holding_days : ℚ) :=
  claim2_full_cover 1 2 1 0 "2020-01-01" "2020-01-03" permPs1 ⟨2020, 1, 1⟩
    ⟨2020, 1, 3⟩ (by decide) (by decide) (by decide) (by decide) (by decide)
    (by decide) (by decide) (by decide) (by decide)

/-- C9: `calculate_cgt_periods` enforces only that the dates parse and
that the sell date is strictly after the buy date (erroring otherwise):
it succeeds on every period list whose dates parse (performing none of
the validator's period-level checks), returning the breakdown in input
order, with a period whose end is not strictly after its start
contributing overlap 0; the empty list yields taxable_days = 0 and
uncovered_days = holding_days. -/
theorem claim9_no_period_validation :
    (∀ (bp sp op cw : ℚ) (bs ss : String) (ps : List Period) (db ds : Date),
      parse_date bs = .ok db → parse_date ss = .ok ds →
      toDays db < toDays ds → (∀ p ∈ ps, parsesOkB p = true) →
      ∃ r, calculate_cgt_periods bp bs sp ss op cw ps = .ok r ∧
        r.period_breakdown = ps.map (pentry (toDays db) (toDays ds)) ∧
        (∀ p ∈ ps, pEnd p ≤ pStart p →
          povDays (toDays db) (toDays ds) p = 0)) ∧
    (∀ (bp sp op cw : ℚ) (bs ss : String) (db ds : Date),
      parse_date bs = .ok db → parse_date ss = .ok ds →
      toDays db < toDays ds →
      ∃ r, calculate_cgt_periods bp bs sp ss op cw [] = .ok r ∧
        r.taxable_days = 0 ∧ r.uncovered_days = (r.holding_days : ℚ)) ∧
    (∀ (bp sp op cw : ℚ) (bs ss : String) (ps : List Period) (db ds : Date),
      parse_date bs = .ok db → parse_date ss = .ok ds →
      toDays ds ≤ toDays db →
      calculate_cgt_periods bp bs sp ss op cw ps = .error sellBuyMsg) := by
  refine ⟨?_, ?_, ?_⟩
  · intro bp sp op cw bs ss ps db ds hb hsell hlt hp
    refine ⟨_, calculate_ok bp sp op cw bs ss ps db ds hb hsell hlt hp, ?_, ?_⟩
    · simp only [calcResult]
    · intro p hpmem hde
      rw [povDays_eq_startEnd _ _ p (hp p hpmem)]
      simp only [days_overlap]
      rw [if_pos ?_]
      have h1 : min (toDays ds) (pEnd p) ≤ pEnd p := min_le_right _ _
      have h2 : pStart p ≤ max (toDays db) (pStart p) := le_max_right _ _
      linarith
  · intro bp sp op cw bs ss db ds hb hsell hlt
    refine ⟨_, calculate_ok bp sp op cw bs ss [] db ds hb hsell hlt
      (by intro p hpmem; cases hpmem), ?_, ?_⟩
    · simp only [calcResult, List.map_nil, List.sum_nil]
    · simp only [calcResult, List.map_nil, List.sum_nil]
      ring
  · intro bp sp op cw bs ss ps db ds hb hsell hle
    simp only [calculate_cgt_periods, hb, hsell]
    rw [if_pos hle]

/-- C9 witness: a degenerate period (end equals start) is accepted by
the calculator and contributes overlap 0. -/
theorem claim9_witness :
    ∃ r, calculate_cgt_periods 0 "2020-01-01" 0 "2020-02-01" 1 0
        [⟨"z", "2020-01-05", "2020-01-05", 1⟩] = .ok r ∧
      r.period_breakdown = [(⟨"z", "2020-01-05", "2020-01-05", 1⟩ : Period)].map
        (pentry (toDays ⟨2020, 1, 1⟩) (toDays ⟨2020, 2, 1⟩)) ∧
      (∀ p ∈ [(⟨"z", "2020-01-05", "2020-01-05", 1⟩ : Period)],
        pEnd p ≤ pStart p →
        povDays (toDays ⟨2020, 1, 1⟩) (toDays ⟨2020, 2, 1⟩) p = 0) :=
  claim9_no_period_validation.1 0 0 1 0 "2020-01-01" "2020-02-01"
    [⟨"z", "2020-01-05", "2020-01-05", 1⟩] ⟨2020, 1, 1⟩ ⟨2020, 2, 1⟩
    (by decide) (by decide) (by decide) (by decide)

/-- C10: every scalar field of the result is invariant under
permutation of the periods list, while the breakdown list preserves the
original input order of the periods. -/
theorem claim10_permutation_invariance (bp sp op cw : ℚ) (bs ss : String)
    (ps ps' : List Period) (r r' : CGTResult) (hperm : ps.Perm ps')
    (h : calculate_cgt_periods bp bs sp ss op cw ps = .ok r)
    (h' : calculate_cgt_periods bp bs sp ss op cw ps' = .ok r') :
    (r.holding_days = r'.holding_days ∧
     r.taxable_days = r'.taxable_days ∧
     r.exempt_days = r'.exempt_days ∧
     r.uncovered_days = r'.uncovered_days ∧
     r.taxable_fraction = r'.taxable_fraction ∧
     r.exempt_fraction = r'.exempt_fraction ∧
     r.original_cost_base = r'.original_cost_base ∧
     r.capital_works_addback = r'.capital_works_addback ∧
     r.adjusted_cost_base = r'.adjusted_cost_base ∧
     r.sell_price = r'.sell_price ∧
     r.raw_capital_gain = r'.raw_capital_gain ∧
     r.ownership_adjusted_gain = r'.ownership_adjusted_gain ∧
     r.taxable_gain_before_discount = r'.taxable_gain_before_discount ∧
     r.discount_rate = r'.discount_rate ∧
     r.final_taxable_gain = r'.final_taxable_gain) ∧
    r.period_breakdown.map (fun e => (e.label, e.start, e.end_)) =
      ps.map (fun p => (p.label, p.start, p.end_)) := by
  obtain ⟨db, ds, hb, hsell, hlt, hpp, hr⟩ :=
    calculate_isOk bp sp op cw bs ss ps r h
  obtain ⟨db', ds', hb', hsell', hlt', hpp', hr'⟩ :=
    calculate_isOk bp sp op cw bs ss ps' r' h'
  rw [hb] at hb'
  rw [hsell] at hsell'
  have hdb : db = db' := Except.ok.inj hb'
  have hds : ds = ds' := Except.ok.inj hsell'
  subst hdb hds hr hr'
  have htd : (ps.map fun p =>
        (povDays (toDays db) (toDays ds) p : ℚ) * p.taxable_factor).sum =
      (ps'.map fun p =>
        (povDays (toDays db) (toDays ds) p : ℚ) * p.taxable_factor).sum :=
    (hperm.map _).sum_eq
  have hed : (ps.map fun p =>
        (povDays (toDays db) (toDays ds) p : ℚ) * (1 - p.taxable_factor)).sum =
      (ps'.map fun p =>
        (povDays (toDays db) (toDays ds) p : ℚ) * (1 - p.taxable_factor)).sum :=
    (hperm.map _).sum_eq
  constructor
  · simp only [calcResult]
    rw [htd, hed]
    simp
  · simp only [calcResult, List.map_map]
    apply List.map_congr_left
    intro p hpmem
    rfl

/-- C10 witness: swapping the two periods of a concrete input leaves
every scalar field unchanged, while the breakdown follows the input
order. -/
theorem claim10_witness :
    (permRes1.holding_days = permRes2.holding_days ∧
     permRes1.taxable_days = permRes2.taxable_days ∧
     permRes1.exempt_days = permRes2.exempt_days ∧
     permRes1.uncovered_days = permRes2.uncovered_days ∧
     permRes1.taxable_fraction = permRes2.taxable_fraction ∧
     permRes1.exempt_fraction = permRes2.exempt_fraction ∧
     permRes1.original_cost_base = permRes2.original_cost_base ∧
     permRes1.capital_works_addback = permRes2.capital_works_addback ∧
     permRes1.adjusted_cost_base = permRes2.adjusted_cost_base ∧
     permRes1.sell_price = permRes2.sell_price ∧
     permRes1.raw_capital_gain = permRes2.raw_capital_gain ∧
     permRes1.ownership_adjusted_gain = permRes2.ownership_adjusted_gain ∧
     permRes1.taxable_gain_before_discount = permRes2.taxable_gain_before_discount ∧
     permRes1.discount_rate = permRes2.discount_rate ∧
     permRes1.final_taxable_gain = permRes2.final_taxable_gain) ∧
    permRes1.period_breakdown.map (fun e => (e.label, e.start, e.end_)) =
      permPs1.map (fun p => (p.label, p.start, p.end_)) :=
  claim10_permutation_invariance 1 2 1 0 "2020-01-01" "2020-01-03" permPs1
    permPs2 permRes1 permRes2 (List.Perm.swap _ _ _) eval_perm1 eval_perm2
